import Mathlib

/-!
Shallow embedding of the MCP integration repository's two non-trivial
components: the process-transport bridge (`src/mcp_http_wrapper.js`) and the
routing/aggregation gateway (`src/unnamed/part_008`, whose configuration
module is `src/unnamed/part_009`).  Pure data and the relevant control flow
are translated directly from the JavaScript source; asynchronous behaviour
(stdout data events, timers, process exit) is modelled as an explicit event
trace folded over an explicit state.
-/

/-- JSON values as produced by `JSON.parse` / consumed by `res.json`.
Numbers are restricted to integers: every `id` and body exercised by the
repository is integral. -/
inductive Json where
  | null
  | bool (b : Bool)
  | num (n : Int)
  | str (s : String)
  | arr (elems : List Json)
  | obj (fields : List (String × Json))
deriving Repr

/-- JavaScript truthiness of a JSON value (objects and arrays are always
truthy; `null`, `false`, `0` and `""` are falsy). -/
def jsTruthy : Json → Bool
  | .null => false
  | .bool b => b
  | .num n => n != 0
  | .str s => s != ""
  | .arr _ => true
  | .obj _ => true

/-- First-match association lookup, the embedding of JavaScript's
`object[key]` / `Map.get` on string-keyed collections (keys are unique in
every collection the source builds). -/
def assocGet (k : String) : List (String × α) → Option α
  | [] => none
  | p :: ps => if p.1 = k then some p.2 else assocGet k ps

/-- Insert-or-overwrite on an association list: JavaScript object-field
assignment (an existing key keeps its position, a new key is appended). -/
def assocSet (k : String) (v : α) : List (String × α) → List (String × α)
  | [] => [(k, v)]
  | p :: ps => if p.1 = k then (k, v) :: ps else p :: assocSet k v ps

/-- Remove the (unique) binding of a key from an association list. -/
def assocRemove (k : String) : List (String × α) → List (String × α)
  | [] => []
  | p :: ps => if p.1 = k then ps else p :: assocRemove k ps

/-- Prepend a parsed object member to the members parsed after it, with
JavaScript's duplicate-key rule: the first occurrence fixes the position,
the last occurrence fixes the value. -/
def dedupCons (k : String) (v : α) (fs : List (String × α)) : List (String × α) :=
  match assocGet k fs with
  | some v2 => (k, v2) :: assocRemove k fs
  | none => (k, v) :: fs

/-- Field access `j.k` on a parsed value: `undefined` (`none`) on missing
fields and on non-objects. -/
def Json.getField : Json → String → Option Json
  | .obj fs, k => assocGet k fs
  | _, _ => none

/-- JSON whitespace. -/
def isWsChar (c : Char) : Bool :=
  c = ' ' || c = '\t' || c = '\n' || c = '\r'

/-- Drop leading JSON whitespace. -/
def skipWs : List Char → List Char
  | [] => []
  | c :: cs => if isWsChar c then skipWs cs else c :: cs

/-- JavaScript `String.prototype.trim` on a character list. -/
def trimChars (cs : List Char) : List Char :=
  ((cs.dropWhile isWsChar).reverse.dropWhile isWsChar).reverse

/-- A single JSON string escape (`\uXXXX` escapes are not needed by any
line the repository exchanges and are rejected). -/
def escChar (c : Char) : Option Char :=
  if c = 'n' then some '\n'
  else if c = 't' then some '\t'
  else if c = 'r' then some '\r'
  else if c = '"' then some '"'
  else if c = '\\' then some '\\'
  else if c = '/' then some '/'
  else if c = 'b' then some (Char.ofNat 8)
  else if c = 'f' then some (Char.ofNat 12)
  else none

/-- Parse the remainder of a JSON string after the opening quote.  Raw
control characters (in particular a raw newline) are rejected, as in
`JSON.parse`. -/
def parseStrAux : List Char → List Char → Option (String × List Char)
  | acc, '"' :: rest => some (⟨acc.reverse⟩, rest)
  | acc, '\\' :: c :: rest =>
    match escChar c with
    | some e => parseStrAux (e :: acc) rest
    | none => none
  | acc, c :: rest => if c.toNat < 32 then none else parseStrAux (c :: acc) rest
  | _, [] => none

/-- Decimal digits to a natural number. -/
def digitsToNat (ds : List Char) : Nat :=
  ds.foldl (fun n c => 10 * n + (c.toNat - '0'.toNat)) 0

/-- Parse a JSON integer (optional minus sign, no leading zeros; fractions
and exponents never occur on the wire here and are rejected). -/
def parseNumber (cs : List Char) : Option (Json × List Char) :=
  let neg : Bool := cs.head? == some '-'
  let cs1 := if neg then cs.tail else cs
  match cs1.span Char.isDigit with
  | ([], _) => none
  | (ds, rest) =>
    if ds.length > 1 ∧ ds.head? = some '0' then none
    else
      let n : Int := Int.ofNat (digitsToNat ds)
      some (.num (if neg then -n else n), rest)

mutual

/-- Fuel-indexed recursive-descent JSON value parser. -/
def parseVal : Nat → List Char → Option (Json × List Char)
  | 0, _ => none
  | fuel + 1, cs =>
    match skipWs cs with
    | 'n' :: 'u' :: 'l' :: 'l' :: rest => some (.null, rest)
    | 't' :: 'r' :: 'u' :: 'e' :: rest => some (.bool true, rest)
    | 'f' :: 'a' :: 'l' :: 's' :: 'e' :: rest => some (.bool false, rest)
    | '"' :: rest =>
      match parseStrAux [] rest with
      | some (s, rest2) => some (.str s, rest2)
      | none => none
    | '[' :: rest =>
      (match skipWs rest with
      | ']' :: rest2 => some (.arr [], rest2)
      | _ =>
        match parseItems fuel rest with
        | some (xs, rest2) => some (.arr xs, rest2)
        | none => none)
    | '{' :: rest =>
      (match skipWs rest with
      | '}' :: rest2 => some (.obj [], rest2)
      | _ =>
        match parseFields fuel rest with
        | some (fs, rest2) => some (.obj fs, rest2)
        | none => none)
    | cs2 => parseNumber cs2

/-- Comma-separated array items (at least one). -/
def parseItems : Nat → List Char → Option (List Json × List Char)
  | 0, _ => none
  | fuel + 1, cs =>
    match parseVal fuel cs with
    | some (v, rest) =>
      (match skipWs rest with
      | ',' :: rest2 =>
        (match parseItems fuel rest2 with
        | some (vs, rest3) => some (v :: vs, rest3)
        | none => none)
      | ']' :: rest2 => some ([v], rest2)
      | _ => none)
    | none => none

/-- Comma-separated object members (at least one); a duplicate key keeps
the last value, as in `JSON.parse`. -/
def parseFields : Nat → List Char → Option (List (String × Json) × List Char)
  | 0, _ => none
  | fuel + 1, cs =>
    match skipWs cs with
    | '"' :: rest =>
      (match parseStrAux [] rest with
      | some (k, rest2) =>
        (match skipWs rest2 with
        | ':' :: rest3 =>
          (match parseVal fuel rest3 with
          | some (v, rest4) =>
            (match skipWs rest4 with
            | ',' :: rest5 =>
              (match parseFields fuel rest5 with
              | some (fs, rest6) => some (dedupCons k v fs, rest6)
              | none => none)
            | '}' :: rest5 => some ([(k, v)], rest5)
            | _ => none)
          | none => none)
        | _ => none)
      | none => none)
    | _ => none

end

/-- `JSON.parse` on one line: a single value, with surrounding whitespace
allowed and trailing garbage rejected. -/
def parseJson (cs : List Char) : Option Json :=
  match parseVal (2 * cs.length + 2) cs with
  | some (v, rest) => if skipWs rest = [] then some v else none
  | none => none

/-- String-level entry point. -/
def Json.parse (s : String) : Option Json :=
  parseJson s.data

/-!
## Process-Transport Bridge (`src/mcp_http_wrapper.js`)

`sendToServer` (lines 152-190) attaches one `data` listener per outstanding
call on the subprocess's stdout.  On each data event the listener converts
the chunk to a string, splits it on `'\n'`, keeps the lines whose `trim()`
is non-empty, and scans them in order: a line that fails `JSON.parse` is
ignored, a line whose parsed `id` strictly equals the call's `request.id`
detaches the listener and resolves the promise, any other parsed line is
skipped.  A 10-second timer per call detaches the listener and rejects with
"Request timeout".  `startServer`'s `close` handler (lines 119-122) only
sets `this.serverProcess = null`.  The asynchronous behaviour is modelled
as a fold of explicit events (stdout data chunks, per-call timer firings,
process close) over the set of outstanding calls.
-/

/-- JavaScript `String.prototype.split('\n')` on a character list. -/
def splitNlChars : List Char → List (List Char)
  | [] => [[]]
  | c :: cs =>
    if c = '\n' then [] :: splitNlChars cs
    else
      match splitNlChars cs with
      | [] => [[c]]
      | l :: ls => (c :: l) :: ls

/-- `response.id === request.id` for an integer `request.id`: true exactly
when the parsed response carries a numeric `id` field of the same value. -/
def matchesId (j : Json) (reqId : Int) : Bool :=
  match j.getField "id" with
  | some (.num m) => m == reqId
  | _ => false

/-- One run of `responseHandler` (lines 162-177) for the call with id
`reqId` over one stdout chunk: split on newlines, drop whitespace-only
lines, return the first parsed line whose `id` matches. -/
def handleChunk (reqId : Int) (chunk : List Char) : Option Json :=
  let lines := (splitNlChars chunk).filter (fun l => !(trimChars l).isEmpty)
  lines.findSome? (fun l =>
    match parseJson l with
    | some j => if matchesId j reqId then some j else none
    | none => none)

/-- The observable state of one outstanding `sendToServer` promise.  A call
is `pending` exactly while its data listener is attached; resolution and
timeout rejection both detach the listener first, and a settled promise
ignores later `resolve`/`reject`. -/
inductive CallOutcome where
  | pending
  | resolved (response : Json)
  | rejectedTimeout
deriving Repr

/-- One outstanding call: its JSON-RPC request id and its promise state. -/
structure Call where
  reqId : Int
  outcome : CallOutcome
deriving Repr

/-- The wrapper state the outstanding calls can observe: whether
`this.serverProcess` is still non-null, and the per-call promise states. -/
structure BridgeState where
  alive : Bool
  calls : List Call
deriving Repr

/-- Asynchronous events delivered to the wrapper by the event loop. -/
inductive BridgeEvent where
  | stdoutData (chunk : List Char)
  | timerFired (i : Nat)
  | processClosed
deriving Repr

/-- Whether an event is the subprocess `close` event. -/
def BridgeEvent.isProcessClosed : BridgeEvent → Bool
  | .processClosed => true
  | _ => false

/-- Effect of one stdout chunk on one call: a pending call resolves with
the first matching parsed line, a settled call is unaffected (its listener
was already detached). -/
def applyChunkCall (chunk : List Char) (c : Call) : Call :=
  match c.outcome with
  | .pending =>
    match handleChunk c.reqId chunk with
    | some j => { c with outcome := .resolved j }
    | none => c
  | _ => c

/-- Effect of a call's 10-second timer (lines 185-188): detach the listener
and reject with "Request timeout"; a no-op on an already settled promise. -/
def timeoutCall (c : Call) : Call :=
  match c.outcome with
  | .pending => { c with outcome := .rejectedTimeout }
  | _ => c

/-- Apply `timeoutCall` to the i-th outstanding call. -/
def rejectAt : List Call → Nat → List Call
  | [], _ => []
  | c :: cs, 0 => timeoutCall c :: cs
  | c :: cs, i + 1 => c :: rejectAt cs i

/-- One event-loop step of the wrapper.
A data event runs every attached listener (each affects only its own call).
Both the timer callback and the listener's resolution path first execute
`this.serverProcess.stdout.off(...)`, which throws on a null handle, so
after the process has closed neither path can settle a promise; the `close`
handler itself (lines 119-122) only sets `this.serverProcess = null` and
touches no pending call. -/
def bridgeStep (s : BridgeState) : BridgeEvent → BridgeState
  | .stdoutData chunk =>
    if s.alive then { s with calls := s.calls.map (applyChunkCall chunk) } else s
  | .timerFired i =>
    if s.alive then { s with calls := rejectAt s.calls i } else s
  | .processClosed => { s with alive := false }

/-- Fold a trace of events over the wrapper state. -/
def bridgeRun (s : BridgeState) (evs : List BridgeEvent) : BridgeState :=
  evs.foldl bridgeStep s

/-- Effect of a sequence of stdout chunks on a single call. -/
def processChunks (chunks : List (List Char)) (c : Call) : Call :=
  chunks.foldl (fun c ch => applyChunkCall ch c) c

/-- A concurrent-call scenario: one outstanding call, the complete response
line the subprocess will emit for it, and that line's parse. -/
structure SpecCall where
  reqId : Int
  line : List Char
  json : Json

/-- The outstanding-call record freshly created by `sendToServer`. -/
def mkPending (s : SpecCall) : Call :=
  ⟨s.reqId, .pending⟩

/-- The record of a call resolved with its own response. -/
def mkResolved (s : SpecCall) : Call :=
  ⟨s.reqId, .resolved s.json⟩

/-!
## Routing/aggregation gateway (`src/unnamed/part_008`, config in
`src/unnamed/part_009`)

The registry, routing strategy and header name come from the config module;
they are passed in here as an explicit `ProxyConfig` record so that the
theorems quantify over registries.  Network calls (`axios`) are modelled as
oracles passed to the handlers; the handler result records the forward it
attempted, if any, so "no downstream network call" is expressible.
-/

/-- One downstream registry entry (a value of `config.downstreamServers`). -/
structure ServerCfg where
  url : String
  description : String
  healthEndpoint : String
  timeout : Nat
deriving Repr, DecidableEq

/-- The configuration fields the gateway reads.  `servers` is
`config.downstreamServers` in insertion order (keys unique). -/
structure ProxyConfig where
  servers : List (String × ServerCfg)
  strategy : String
  targetHeader : String
  defaultServer : Option String
  serverTimeout : Nat
  prefixBasePath : String
deriving Repr

/-- A downstream health record.  `checkDownstreamHealth` also stores
`last_check` and `response_time`/`error`, which no gated code path reads;
only `status` (the string "healthy" or "unhealthy") is consulted. -/
structure HealthRecord where
  status : String
deriving Repr

/-- An inbound Express request as the handlers read it (header names are
lower-cased by Node). -/
structure HttpRequest where
  method : String
  path : String
  headers : List (String × String)
  body : Json
  query : List (String × String)
deriving Repr

/-- JavaScript truthiness of a nullable string (`null`/`undefined` and the
empty string are falsy). -/
def optTruthy : Option String → Bool
  | some s => s != ""
  | none => false

/-- `a || 'default'` on a nullable string. -/
def jsOrStr (o : Option String) (d : String) : String :=
  match o with
  | some s => if s = "" then d else s
  | none => d

/-- JavaScript `String.prototype.split` with a one-character separator,
on a character list. -/
def splitCharsOn (sep : Char) : List Char → List (List Char)
  | [] => [[]]
  | c :: cs =>
    if c = sep then [] :: splitCharsOn sep cs
    else
      match splitCharsOn sep cs with
      | [] => [[c]]
      | l :: ls => (c :: l) :: ls

/-- String-level `split(sep)`. -/
def jsSplit (sep : Char) (s : String) : List String :=
  (splitCharsOn sep s.data).map (fun cs => ⟨cs⟩)

/-- `String.prototype.toUpperCase` (ASCII, as used on HTTP method names). -/
def toUpperStr (s : String) : String :=
  ⟨s.data.map Char.toUpper⟩

/-- `String.prototype.toLowerCase` (ASCII, as used on header names). -/
def toLowerStr (s : String) : String :=
  ⟨s.data.map Char.toLower⟩

/-- The routing decision produced by `determineTarget` (lines 171-220). -/
structure TargetInfo where
  target : Option String
  server : Option ServerCfg
  targetPath : String
  error : Option String
deriving Repr

/-- `determineTarget` (lines 171-220): resolve the downstream target from
the path (`prefix` context), the `X-Target-MCP` header (`header` context)
or the configured default (`fallback`), then look it up in the registry.
The vacuous `if (targetPath === '/') targetPath = '/'` of line 183 is a
no-op and is not reproduced. -/
def determineTarget (cfg : ProxyConfig) (req : HttpRequest) (routingContext : String) : TargetInfo :=
  let base : Option String × String × Option String :=
    if routingContext = "prefix" then
      let pathParts := jsSplit '/' req.path
      if pathParts.length ≥ 3 ∧ pathParts.get? 1 = some "proxy" then
        (some (pathParts.getD 2 ""),
         "/" ++ String.intercalate "/" (pathParts.drop 3),
         none)
      else (none, req.path, none)
    else if routingContext = "header" then
      let t := assocGet (toLowerStr cfg.targetHeader) req.headers
      let err :=
        if !optTruthy t && (cfg.strategy == "header") then
          some ("Missing " ++ cfg.targetHeader ++ " header")
        else none
      let tp :=
        if req.path.startsWith "/mcp" then
          (let s := req.path.drop 4; if s = "" then "/" else s)
        else req.path
      (t, tp, err)
    else if routingContext = "fallback" then
      let t := cfg.defaultServer
      let err :=
        if !optTruthy t then
          some "No default server configured and no routing information provided"
        else none
      (t, req.path, err)
    else (none, req.path, none)
  let target := base.1
  let server := if optTruthy target then assocGet (target.getD "") cfg.servers else none
  let err :=
    if optTruthy target && server.isNone then
      some ("Unknown target server: " ++ target.getD "")
    else base.2.2
  ⟨target, server, base.2.1, err⟩

/-- `isServerHealthy` (lines 346-349): true only when a recorded status is
exactly "healthy"; a server with no record yet is not healthy. -/
def isServerHealthy (health : List (String × HealthRecord)) (serverId : String) : Bool :=
  match assocGet serverId health with
  | some h => h.status == "healthy"
  | none => false

/-- The axios request configuration built by `forwardRequest`
(lines 222-256). -/
structure ForwardRequest where
  method : String
  url : String
  headers : List (String × String)
  timeout : Nat
  data : Option Json
  params : Option (List (String × String))
deriving Repr

/-- The possible outcomes of one axios call as `handleProxyRequest`'s
`catch` distinguishes them.  `forwardRequest` sets `validateStatus: () =>
true`, so a downstream HTTP error status arrives as a plain `response`. -/
inductive AxiosOutcome where
  | response (status : Nat) (body : Json)
  | connRefused (msg : String)
  | dnsFailure (msg : String)
  | timedOut (msg : String)
  | errorWithResponse (status : Nat) (body : Json) (msg : String)
  | otherError (msg : String)
deriving Repr

/-- `forwardRequest`'s request construction (lines 226-251): target URL,
headers minus `host`/`connection`/`content-length`, the server's timeout
with the global default as `||`-fallback, a body only for POST/PUT/PATCH,
and the query parameters when non-empty. -/
def buildForwardRequest (cfg : ProxyConfig) (ti : TargetInfo) (srv : ServerCfg) (req : HttpRequest) : ForwardRequest :=
  { method := req.method
    url := srv.url ++ ti.targetPath
    headers := req.headers.filter
      (fun kv => kv.1 != "host" && kv.1 != "connection" && kv.1 != "content-length")
    timeout := if srv.timeout = 0 then cfg.serverTimeout else srv.timeout
    data := if (["POST", "PUT", "PATCH"] : List String).contains (toUpperStr req.method) then some req.body else none
    params := if req.query.length > 0 then some req.query else none }

/-- Body of the 400 "Unable to determine target server" response
(lines 127-132). -/
def unableBody (cfg : ProxyConfig) (ti : TargetInfo) : Json :=
  .obj [("error", .str "Unable to determine target server"),
        ("message", .str (jsOrStr ti.error "No valid routing information provided")),
        ("available_targets", .arr (cfg.servers.map (fun p => .str p.1))),
        ("routing_strategy", .str cfg.strategy)]

/-- Body of the health-gate 503 response (lines 137-141). -/
def unavailableBody (target : String) : Json :=
  .obj [("error", .str "Target server unavailable"),
        ("target", .str target),
        ("message", .str "The target MCP server is currently unavailable")]

/-- Body of the transport-failure 503 response (lines 154-158). -/
def downstreamUnavailableBody (details : String) : Json :=
  .obj [("error", .str "Downstream server unavailable"),
        ("message", .str "Unable to connect to the target MCP server"),
        ("details", .str details)]

/-- Body of the 500 response (lines 163-166). -/
def internalProxyErrorBody (msg : String) : Json :=
  .obj [("error", .str "Internal proxy error"),
        ("message", .str msg)]

/-- The response `handleProxyRequest` sends, together with the downstream
forward it attempted (`none` when the request was answered locally). -/
structure ProxyResult where
  status : Nat
  body : Json
  forwarded : Option ForwardRequest
deriving Repr

/-- `handleProxyRequest` (lines 121-169): resolve the target, answer 400
when resolution fails, 503 without forwarding when the health gate blocks,
otherwise forward and map the transport outcome per the `catch` clauses. -/
def handleProxyRequest (cfg : ProxyConfig) (health : List (String × HealthRecord))
    (net : ForwardRequest → AxiosOutcome) (req : HttpRequest) (routingContext : String) : ProxyResult :=
  let ti := determineTarget cfg req routingContext
  match ti.server with
  | none => ⟨400, unableBody cfg ti, none⟩
  | some srv =>
    if !isServerHealthy health (ti.target.getD "") then
      ⟨503, unavailableBody (ti.target.getD ""), none⟩
    else
      let fr := buildForwardRequest cfg ti srv req
      match net fr with
      | .response s b => ⟨s, b, some fr⟩
      | .connRefused m => ⟨503, downstreamUnavailableBody m, some fr⟩
      | .dnsFailure m => ⟨503, downstreamUnavailableBody m, some fr⟩
      | .errorWithResponse s b _ => ⟨s, b, some fr⟩
      | .timedOut m => ⟨500, internalProxyErrorBody m, some fr⟩
      | .otherError m => ⟨500, internalProxyErrorBody m, some fr⟩

/-- The spec's error-mapping table, stated from the claim's own words (C7 /
spec section 4.2), independently of the handler code: transport refusal and
DNS failure give 503, a downstream HTTP response passes through with its
status, everything else (timeout, unexpected exception) gives 500. -/
def specStatusOf : AxiosOutcome → Nat
  | .response s _ => s
  | .connRefused _ => 503
  | .dnsFailure _ => 503
  | .errorWithResponse s _ _ => s
  | .timedOut _ => 500
  | .otherError _ => 500

/-- The spec's requirement on the response body per outcome (C7): a
downstream response's body passes through unchanged; transport failures
are labelled "Downstream server unavailable"; everything else is labelled
"Internal proxy error". -/
def specBodyOk : AxiosOutcome → Json → Prop
  | .response _ b, body => body = b
  | .errorWithResponse _ b _, body => body = b
  | .connRefused _, body => body.getField "error" = some (.str "Downstream server unavailable")
  | .dnsFailure _, body => body.getField "error" = some (.str "Downstream server unavailable")
  | .timedOut _, body => body.getField "error" = some (.str "Internal proxy error")
  | .otherError _, body => body.getField "error" = some (.str "Internal proxy error")

mutual

/-- JavaScript template-literal stringification of a value, as in
`` `${server.id}.${tool.name}` ``. -/
def jsToDisplay : Json → String
  | .str s => s
  | .num n => toString n
  | .null => "null"
  | .bool b => if b then "true" else "false"
  | .arr xs => jsDisplayItems xs
  | .obj _ => "[object Object]"

/-- Array stringification: items joined with commas. -/
def jsDisplayItems : List Json → String
  | [] => ""
  | [x] => jsToDisplay x
  | x :: xs => jsToDisplay x ++ "," ++ jsDisplayItems xs

end

/-- Stringification of a possibly-absent field (`undefined` prints as
"undefined"). -/
def jsFieldDisplay (o : Option Json) : String :=
  match o with
  | some j => jsToDisplay j
  | none => "undefined"

/-- JavaScript object-field assignment / spread override; spreading a
non-object contributes no fields. -/
def Json.setField (j : Json) (k : String) (v : Json) : Json :=
  match j with
  | .obj fs => .obj (assocSet k v fs)
  | _ => .obj (assocSet k v [])

/-- `{...tool, server: server.id, name: `${server.id}.${tool.name}`}`
(lines 281-285): the namespaced copy of one discovered tool. -/
def renameTool (serverId : String) (tool : Json) : Json :=
  (tool.setField "server" (.str serverId)).setField "name"
    (.str (serverId ++ "." ++ jsFieldDisplay (tool.getField "name")))

/-- One downstream entry of the aggregated catalog: either
`{status: 'available', url, description, tools}` or
`{status: 'unavailable', url, description, error}`. -/
structure AggServerEntry where
  status : String
  url : String
  description : String
  tools : Option Json
  error : Option String
deriving Repr

/-- `getServerInfo` of the config module (part_009 lines 124-136). -/
structure ServerInfo where
  name : String
  version : String
  routing_strategy : String
  downstream_servers : List String
deriving Repr

/-- The static info record (the `endpoints` sub-object is constant strings
plus `config.routing.prefixBasePath`; no claim reads it). -/
def getServerInfo (cfg : ProxyConfig) : ServerInfo :=
  ⟨"MCP Proxy Server", "1.0.0", cfg.strategy, cfg.servers.map Prod.fst⟩

/-- The aggregated catalog built by `aggregateGetMethods` (lines 258-302). -/
structure AggregatedMethods where
  proxy_info : ServerInfo
  downstream_servers : List (String × AggServerEntry)
  aggregated_tools : List Json
deriving Repr

/-- The per-server body of the concurrent map of `aggregateGetMethods`:
call `GET {url}/tools`; on success record an "available" entry whose
`tools` is `response.data.tools || response.data` and push the namespaced
copies of `response.data.tools` when that field is an array (`forEach` on a
truthy non-array throws inside the same `try`, so the `catch` then
overwrites the entry as "unavailable"); on error record an "unavailable"
entry carrying the error message. -/
def processServer (toolsNet : String → Except String Json) (p : String × ServerCfg) :
    AggServerEntry × List Json :=
  match toolsNet (p.2.url ++ "/tools") with
  | .ok data =>
    match data.getField "tools" with
    | some t =>
      if jsTruthy t then
        match t with
        | .arr ts =>
          (⟨"available", p.2.url, p.2.description, some t, none⟩, ts.map (renameTool p.1))
        | _ =>
          (⟨"unavailable", p.2.url, p.2.description, none,
            some "response.data.tools.forEach is not a function"⟩, [])
      else (⟨"available", p.2.url, p.2.description, some data, none⟩, [])
    | none => (⟨"available", p.2.url, p.2.description, some data, none⟩, [])
  | .error msg => (⟨"unavailable", p.2.url, p.2.description, none, some msg⟩, [])

/-- `aggregateGetMethods` (lines 258-302).  The per-server calls run
concurrently under `Promise.all`; entries and tool pushes happen in
completion order, so the fold is parameterized by `order`, an arbitrary
permutation of the registry. -/
def aggregateGetMethods (cfg : ProxyConfig) (toolsNet : String → Except String Json)
    (order : List (String × ServerCfg)) : AggregatedMethods :=
  { proxy_info := getServerInfo cfg
    downstream_servers := order.map (fun p => (p.1, (processServer toolsNet p).1))
    aggregated_tools := (order.map (fun p => (processServer toolsNet p).2)).flatten }

/-- The `/mcp/get_methods` route (lines 85-96): serve the aggregate as JSON
with status 200.  The route's `catch` → 500 branch is unreachable because
every per-server failure is caught inside `aggregateGetMethods`. -/
def getMethodsRoute (cfg : ProxyConfig) (toolsNet : String → Except String Json)
    (order : List (String × ServerCfg)) : Nat × AggregatedMethods :=
  (200, aggregateGetMethods cfg toolsNet order)

/-- The route table of `setupRoutes` (lines 63-119), one constructor per
registered handler. -/
inductive RouteHandler where
  | hHealth
  | hInfo
  | hGetMethods
  | hProxyAll
  | hMcpAll
  | hMcpExact
  | hNotFound
deriving Repr, DecidableEq

/-- Express dispatch: the first route registered in `setupRoutes` whose
method and path pattern match wins.  `app.get` routes need method GET;
`app.all('/proxy/*')` and `app.all('/mcp/*')` match any method on paths
with the prefix; `app.all('/mcp')` matches the exact path; the trailing
`app.use('*')` is the 404 handler. -/
def dispatchRoute (method : String) (path : String) : RouteHandler :=
  if method = "GET" ∧ path = "/health" then .hHealth
  else if method = "GET" ∧ path = "/info" then .hInfo
  else if method = "GET" ∧ path = "/mcp/get_methods" then .hGetMethods
  else if path.startsWith "/proxy/" then .hProxyAll
  else if path.startsWith "/mcp/" then .hMcpAll
  else if path = "/mcp" then .hMcpExact
  else .hNotFound

/-- What the gateway answers an inbound request with. -/
inductive GatewayAnswer where
  | aggregated (a : AggregatedMethods)
  | proxiedAnswer (r : ProxyResult)
  | healthAnswer
  | infoAnswer (i : ServerInfo)
  | missing (validTargets : List String)
deriving Repr

/-- The downstream forward a gateway answer performed, if any. -/
def GatewayAnswer.forwardOf : GatewayAnswer → Option ForwardRequest
  | .proxiedAnswer r => r.forwarded
  | _ => none

/-- Whole-gateway handling of one request: dispatch per the route table,
then run the matched handler. -/
def gatewayHandle (cfg : ProxyConfig) (health : List (String × HealthRecord))
    (net : ForwardRequest → AxiosOutcome) (toolsNet : String → Except String Json)
    (order : List (String × ServerCfg)) (req : HttpRequest) : GatewayAnswer :=
  match dispatchRoute req.method req.path with
  | .hHealth => .healthAnswer
  | .hInfo => .infoAnswer (getServerInfo cfg)
  | .hGetMethods => .aggregated (aggregateGetMethods cfg toolsNet order)
  | .hProxyAll => .proxiedAnswer (handleProxyRequest cfg health net req "prefix")
  | .hMcpAll => .proxiedAnswer (handleProxyRequest cfg health net req "header")
  | .hMcpExact => .proxiedAnswer (handleProxyRequest cfg health net req "header")
  | .hNotFound => .missing (cfg.servers.map Prod.fst)

/-!
## Concrete fixtures used by the witness theorems
-/

/-- A complete response line for request id 1. -/
def lineA : List Char := "\x7b\"jsonrpc\":\"2.0\",\"id\":1,\"result\":10\x7d".data

/-- Its parse. -/
def jsonA : Json := .obj [("jsonrpc", .str "2.0"), ("id", .num 1), ("result", .num 10)]

/-- A complete response line for request id 2. -/
def lineB : List Char := "\x7b\"jsonrpc\":\"2.0\",\"id\":2,\"result\":20\x7d".data

/-- Its parse. -/
def jsonB : Json := .obj [("jsonrpc", .str "2.0"), ("id", .num 2), ("result", .num 20)]

/-- A complete response line for request id 3. -/
def lineC : List Char := "\x7b\"jsonrpc\":\"2.0\",\"id\":3,\"result\":30\x7d".data

/-- Its parse. -/
def jsonC : Json := .obj [("jsonrpc", .str "2.0"), ("id", .num 3), ("result", .num 30)]

/-- Three concurrent calls with distinct ids and their response lines. -/
def specABC : List SpecCall := [⟨1, lineA, jsonA⟩, ⟨2, lineB, jsonB⟩, ⟨3, lineC, jsonC⟩]

/-- First half of the id-1 response line, as its own stdout chunk. -/
def chunkSplitA : List Char := "\x7b\"jsonrpc\":\"2.0\",\"id\"".data

/-- Second half of the id-1 response line (with the terminating newline). -/
def chunkSplitB : List Char := ":1,\"result\":10\x7d".data ++ ['\n']

/-- A non-JSON diagnostic line on stdout. -/
def noiseChunk : List Char := "server started".data ++ ['\n']

/-- A response line for request id 7. -/
def lineG : List Char := "\x7b\"id\":7,\"result\":\"late\"\x7d".data

/-- Downstream server fixtures. -/
def srvAlpha : ServerCfg := ⟨"http://localhost:8001", "Alpha downstream", "/health", 10000⟩

/-- Second downstream server. -/
def srvBeta : ServerCfg := ⟨"http://localhost:8002", "Beta downstream", "/health", 15000⟩

/-- Third downstream server. -/
def srvGamma : ServerCfg := ⟨"http://localhost:8005", "Gamma downstream", "/health", 20000⟩

/-- A two-server registry under the prefix strategy. -/
def cfgAB : ProxyConfig :=
  ⟨[("alpha", srvAlpha), ("beta", srvBeta)], "prefix", "X-Target-MCP", none, 30000, "/proxy"⟩

/-- The same registry under the header strategy. -/
def cfgHeaderAB : ProxyConfig :=
  ⟨[("alpha", srvAlpha), ("beta", srvBeta)], "header", "X-Target-MCP", none, 30000, "/proxy"⟩

/-- A three-server registry. -/
def cfg3 : ProxyConfig :=
  ⟨[("alpha", srvAlpha), ("beta", srvBeta), ("gamma", srvGamma)], "prefix", "X-Target-MCP",
   none, 30000, "/proxy"⟩

/-- Health snapshot: alpha healthy, beta unhealthy. -/
def healthAB : List (String × HealthRecord) := [("alpha", ⟨"healthy"⟩), ("beta", ⟨"unhealthy"⟩)]

/-- A network oracle whose every forward succeeds. -/
def netAlwaysOk : ForwardRequest → AxiosOutcome :=
  fun _ => .response 200 (.obj [("ok", .bool true)])

/-- A network oracle whose every forward is refused at the socket. -/
def netRefused : ForwardRequest → AxiosOutcome :=
  fun _ => .connRefused "connect ECONNREFUSED 127.0.0.1:8001"

/-- A discovered tool of alpha. -/
def toolReadFile : Json := .obj [("name", .str "read_file"), ("description", .str "Read a file")]

/-- A discovered tool of beta. -/
def toolSearch : Json := .obj [("name", .str "search"), ("description", .str "Search")]

/-- Tools oracle: alpha and beta answer, gamma's socket is refused. -/
def toolsNet3 : String → Except String Json :=
  fun url =>
    if url = "http://localhost:8001/tools" then .ok (.obj [("tools", .arr [toolReadFile])])
    else if url = "http://localhost:8002/tools" then .ok (.obj [("tools", .arr [toolSearch])])
    else .error "connect ECONNREFUSED 127.0.0.1:8005"

/-- A completion order of the three concurrent discovery calls (reverse of
registration order). -/
def order3 : List (String × ServerCfg) := [("gamma", srvGamma), ("beta", srvBeta), ("alpha", srvAlpha)]

/-- Prefix-routed request to alpha. -/
def reqAlphaTools : HttpRequest := ⟨"GET", "/proxy/alpha/tools", [], .null, []⟩

/-- Prefix-routed request to beta. -/
def reqBetaTools : HttpRequest := ⟨"GET", "/proxy/beta/tools", [], .null, []⟩

/-- Header-routed request with no `X-Target-MCP` header. -/
def reqNoHeader : HttpRequest := ⟨"GET", "/mcp/tools", [], .null, []⟩

/-- A DELETE carrying a body, auth and hop-by-hop headers, and a query. -/
def reqDelete : HttpRequest :=
  ⟨"DELETE", "/proxy/alpha/items",
   [("host", "gateway"), ("connection", "keep-alive"), ("content-length", "13"),
    ("authorization", "Bearer token1")],
   .obj [("x", .num 1)], [("force", "true")]⟩

/-- Its routing decision. -/
def tiDelete : TargetInfo := determineTarget cfgAB reqDelete "prefix"

/-- GET of the aggregation endpoint, with a routing header present. -/
def reqGetMethods : HttpRequest :=
  ⟨"GET", "/mcp/get_methods", [("x-target-mcp", "alpha")], .null, []⟩

/-!
## Theorems
-/

/-- C5: whenever routing resolution fails — the resolved target is not in
the registry, or (under the header strategy) the `X-Target-MCP` header is
absent, both of which leave `determineTarget` without a server — the
gateway answers 400, the body's `available_targets` lists exactly the
registered identifiers in registry order, and no downstream forward is
attempted. -/
theorem proxy_unresolved_target_yields_400 (cfg : ProxyConfig)
    (health : List (String × HealthRecord)) (net : ForwardRequest → AxiosOutcome)
    (req : HttpRequest) (ctx : String)
    (h : (determineTarget cfg req ctx).server = none) :
    (handleProxyRequest cfg health net req ctx).status = 400 ∧
    (handleProxyRequest cfg health net req ctx).forwarded = none ∧
    (handleProxyRequest cfg health net req ctx).body.getField "available_targets" =
      some (.arr (cfg.servers.map (fun p => .str p.1))) := by
  simp [handleProxyRequest, h, unableBody, Json.getField, assocGet]

/-- C5 witness: header strategy, no `X-Target-MCP` header: 400 listing
`alpha` and `beta`, no forward. -/
theorem proxy_unresolved_target_yields_400_witness :
    (determineTarget cfgHeaderAB reqNoHeader "header").server = none ∧
    (handleProxyRequest cfgHeaderAB healthAB netAlwaysOk reqNoHeader "header").status = 400 ∧
    (handleProxyRequest cfgHeaderAB healthAB netAlwaysOk reqNoHeader "header").forwarded = none ∧
    (handleProxyRequest cfgHeaderAB healthAB netAlwaysOk reqNoHeader "header").body.getField
      "available_targets" = some (.arr [.str "alpha", .str "beta"]) :=
  ⟨rfl, proxy_unresolved_target_yields_400 cfgHeaderAB healthAB netAlwaysOk reqNoHeader "header" rfl⟩

/-- C4 counterexample: target `alpha` is registered but has never been
polled (empty health map), so its last-known status is not "unhealthy" —
yet the gateway answers 503 and attempts no network call, because
`isServerHealthy` treats an absent record like an unhealthy one.  This
refutes "for any other status — including a target that has never been
polled — the forward is attempted". -/
theorem health_gate_counterexample :
    assocGet "alpha" ([] : List (String × HealthRecord)) = none ∧
    (determineTarget cfgAB reqAlphaTools "prefix").server = some srvAlpha ∧
    (handleProxyRequest cfgAB [] netAlwaysOk reqAlphaTools "prefix").status = 503 ∧
    (handleProxyRequest cfgAB [] netAlwaysOk reqAlphaTools "prefix").forwarded = none :=
  ⟨rfl, rfl, rfl, rfl⟩

/-- C4 (amended): for a request whose resolved target exists in the
registry, the gateway fails fast with 503 and no network call exactly when
the target's last-known status is not "healthy" — that is, when it is
"unhealthy" or the target has never been polled; the forward is attempted
only when the recorded status is "healthy". -/
theorem health_gate_blocks_unless_healthy (cfg : ProxyConfig)
    (health : List (String × HealthRecord)) (net : ForwardRequest → AxiosOutcome)
    (req : HttpRequest) (ctx : String) (srv : ServerCfg)
    (h : (determineTarget cfg req ctx).server = some srv) :
    (isServerHealthy health ((determineTarget cfg req ctx).target.getD "") = false →
      (handleProxyRequest cfg health net req ctx).status = 503 ∧
      (handleProxyRequest cfg health net req ctx).forwarded = none) ∧
    (isServerHealthy health ((determineTarget cfg req ctx).target.getD "") = true →
      (handleProxyRequest cfg health net req ctx).forwarded =
        some (buildForwardRequest cfg (determineTarget cfg req ctx) srv req)) := by
  constructor
  · intro hh
    simp [handleProxyRequest, h, hh]
  · intro hh
    simp only [handleProxyRequest, h, hh]
    cases net (buildForwardRequest cfg (determineTarget cfg req ctx) srv req) <;> simp

/-- C4 witness: beta's recorded status is "unhealthy", so `/proxy/beta/...`
is answered 503 with no forward. -/
theorem health_gate_blocks_unless_healthy_witness :
    (determineTarget cfgAB reqBetaTools "prefix").server = some srvBeta ∧
    isServerHealthy healthAB "beta" = false ∧
    (handleProxyRequest cfgAB healthAB netAlwaysOk reqBetaTools "prefix").status = 503 ∧
    (handleProxyRequest cfgAB healthAB netAlwaysOk reqBetaTools "prefix").forwarded = none :=
  ⟨rfl, rfl,
    (health_gate_blocks_unless_healthy cfgAB healthAB netAlwaysOk reqBetaTools "prefix"
      srvBeta rfl).1 rfl⟩

/-- C7: once a forward is attempted (target resolved and healthy), the
handler's response follows the spec's error-mapping table `specStatusOf` /
`specBodyOk`: connection-refused and DNS failure give 503 labelled
"Downstream server unavailable"; a downstream HTTP response — its own
error statuses included, since `validateStatus` never throws on them —
passes through with status and body unchanged; a per-call timeout
(`ECONNABORTED`, no `error.response`) and any other exception give 500
labelled "Internal proxy error". -/
theorem forward_error_mapping (cfg : ProxyConfig)
    (health : List (String × HealthRecord)) (net : ForwardRequest → AxiosOutcome)
    (req : HttpRequest) (ctx : String) (srv : ServerCfg) (o : AxiosOutcome)
    (h : (determineTarget cfg req ctx).server = some srv)
    (hh : isServerHealthy health ((determineTarget cfg req ctx).target.getD "") = true)
    (ho : net (buildForwardRequest cfg (determineTarget cfg req ctx) srv req) = o) :
    (handleProxyRequest cfg health net req ctx).status = specStatusOf o ∧
    specBodyOk o (handleProxyRequest cfg health net req ctx).body := by
  simp only [handleProxyRequest, h, hh, ho]
  cases o <;>
    simp [specStatusOf, specBodyOk, downstreamUnavailableBody, internalProxyErrorBody,
      Json.getField, assocGet]

/-- C7 witness: alpha healthy, socket refused: 503 with the
"Downstream server unavailable" body. -/
theorem forward_error_mapping_witness :
    isServerHealthy healthAB "alpha" = true ∧
    (handleProxyRequest cfgAB healthAB netRefused reqAlphaTools "prefix").status = 503 ∧
    specBodyOk (netRefused (buildForwardRequest cfgAB (determineTarget cfgAB reqAlphaTools "prefix") srvAlpha reqAlphaTools))
      (handleProxyRequest cfgAB healthAB netRefused reqAlphaTools "prefix").body :=
  ⟨rfl,
    (forward_error_mapping cfgAB healthAB netRefused reqAlphaTools "prefix" srvAlpha
      (.connRefused "connect ECONNREFUSED 127.0.0.1:8001") rfl rfl rfl).1,
    (forward_error_mapping cfgAB healthAB netRefused reqAlphaTools "prefix" srvAlpha
      (.connRefused "connect ECONNREFUSED 127.0.0.1:8001") rfl rfl rfl).2⟩

/-- C10: a GET of `/mcp/get_methods` is always answered by the aggregation
route — registered before, hence shadowing, the header-routed `/mcp/*`
forwarder — so the gateway serves the catalog itself and performs no
downstream forward of the request, whatever headers (including
`X-Target-MCP`) are present. -/
theorem get_methods_route_shadows_forwarder (cfg : ProxyConfig)
    (health : List (String × HealthRecord)) (net : ForwardRequest → AxiosOutcome)
    (toolsNet : String → Except String Json) (order : List (String × ServerCfg))
    (req : HttpRequest) (hm : req.method = "GET") (hp : req.path = "/mcp/get_methods") :
    gatewayHandle cfg health net toolsNet order req =
      .aggregated (aggregateGetMethods cfg toolsNet order) ∧
    (gatewayHandle cfg health net toolsNet order req).forwardOf = none := by
  have hd : dispatchRoute req.method req.path = .hGetMethods := by
    rw [hm, hp]; rfl
  constructor
  · simp [gatewayHandle, hd]
  · simp [gatewayHandle, hd, GatewayAnswer.forwardOf]

/-- C10 witness: GET `/mcp/get_methods` with `X-Target-MCP: alpha` present
still yields the aggregate, with no forward. -/
theorem get_methods_route_shadows_forwarder_witness :
    reqGetMethods.method = "GET" ∧ reqGetMethods.headers = [("x-target-mcp", "alpha")] ∧
    gatewayHandle cfgHeaderAB healthAB netAlwaysOk toolsNet3 order3 reqGetMethods =
      .aggregated (aggregateGetMethods cfgHeaderAB toolsNet3 order3) :=
  ⟨rfl, rfl,
    (get_methods_route_shadows_forwarder cfgHeaderAB healthAB netAlwaysOk toolsNet3 order3
      reqGetMethods rfl rfl).1⟩

/-- Helper: a key excluded by the filter predicate cannot be looked up in
the filtered association list. -/
theorem assocGet_filter_out (k : String) (l : List (String × String))
    (p : String × String → Bool) (hp : ∀ kv, p kv = true → kv.1 ≠ k) :
    assocGet k (l.filter p) = none := by
  induction l with
  | nil => rfl
  | cons q l ih =>
    rw [List.filter_cons]
    cases hq : p q with
    | false => simpa using ih
    | true => simp [assocGet, hp q hq, ih]

/-- Helper: membership of the three-element method list as a disjunction. -/
theorem contains_mutating_iff (m : String) :
    ((["POST", "PUT", "PATCH"] : List String).contains m = true) ↔
      (m = "POST" ∨ m = "PUT" ∨ m = "PATCH") := by
  simp [List.contains]

/-- C8 counterexample: a DELETE carrying a JSON body is forwarded without
it — `forwardRequest` attaches `data` only for POST/PUT/PATCH — refuting
"for every mutating method (POST, PUT, PATCH, DELETE) the request body is
forwarded verbatim". -/
theorem forward_delete_body_counterexample :
    reqDelete.method = "DELETE" ∧
    reqDelete.body = Json.obj [("x", Json.num 1)] ∧
    (buildForwardRequest cfgAB tiDelete srvAlpha reqDelete).data = none :=
  ⟨rfl, rfl, rfl⟩

/-- C8 (amended): every forward preserves the method and target URL; the
headers are the inbound headers with exactly `host`, `connection` and
`content-length` removed and every other header passed through unchanged;
the query parameters are attached verbatim when non-empty; and the body is
forwarded verbatim exactly for POST, PUT and PATCH — a DELETE (or any
other method) is forwarded without a body. -/
theorem forward_request_construction (cfg : ProxyConfig) (ti : TargetInfo)
    (srv : ServerCfg) (req : HttpRequest) :
    (buildForwardRequest cfg ti srv req).method = req.method ∧
    (buildForwardRequest cfg ti srv req).url = srv.url ++ ti.targetPath ∧
    assocGet "host" (buildForwardRequest cfg ti srv req).headers = none ∧
    assocGet "connection" (buildForwardRequest cfg ti srv req).headers = none ∧
    assocGet "content-length" (buildForwardRequest cfg ti srv req).headers = none ∧
    (∀ kv ∈ req.headers, kv.1 ≠ "host" → kv.1 ≠ "connection" → kv.1 ≠ "content-length" →
      kv ∈ (buildForwardRequest cfg ti srv req).headers) ∧
    (∀ kv ∈ (buildForwardRequest cfg ti srv req).headers, kv ∈ req.headers) ∧
    (buildForwardRequest cfg ti srv req).params =
      (if req.query.length > 0 then some req.query else none) ∧
    ((buildForwardRequest cfg ti srv req).data = some req.body ↔
      (toUpperStr req.method = "POST" ∨ toUpperStr req.method = "PUT" ∨
        toUpperStr req.method = "PATCH")) ∧
    (¬(toUpperStr req.method = "POST" ∨ toUpperStr req.method = "PUT" ∨
        toUpperStr req.method = "PATCH") →
      (buildForwardRequest cfg ti srv req).data = none) := by
  refine ⟨rfl, rfl, ?_, ?_, ?_, ?_, ?_, rfl, ?_, ?_⟩
  · exact assocGet_filter_out _ _ _ (fun kv h => by
      simp only [Bool.and_eq_true, bne_iff_ne] at h
      exact h.1.1)
  · exact assocGet_filter_out _ _ _ (fun kv h => by
      simp only [Bool.and_eq_true, bne_iff_ne] at h
      exact h.1.2)
  · exact assocGet_filter_out _ _ _ (fun kv h => by
      simp only [Bool.and_eq_true, bne_iff_ne] at h
      exact h.2)
  · intro kv hkv h1 h2 h3
    exact List.mem_filter.mpr ⟨hkv, by simp [bne_iff_ne, h1, h2, h3]⟩
  · intro kv hkv
    exact (List.mem_filter.mp hkv).1
  · by_cases hm : toUpperStr req.method = "POST" ∨ toUpperStr req.method = "PUT" ∨
        toUpperStr req.method = "PATCH"
    · have hc : (["POST", "PUT", "PATCH"] : List String).contains (toUpperStr req.method) = true :=
        (contains_mutating_iff _).mpr hm
      simp [buildForwardRequest, hc, hm]
    · have hc : (["POST", "PUT", "PATCH"] : List String).contains (toUpperStr req.method) = false := by
        rw [← Bool.not_eq_true]
        exact fun h => hm ((contains_mutating_iff _).mp h)
      push_neg at hm
      simp [buildForwardRequest, hc, hm.1, hm.2.1, hm.2.2]
  · intro hm
    have hc : (["POST", "PUT", "PATCH"] : List String).contains (toUpperStr req.method) = false := by
      rw [← Bool.not_eq_true]
      exact fun h => hm ((contains_mutating_iff _).mp h)
    push_neg at hm
    simp [buildForwardRequest, hc, hm.1, hm.2.1, hm.2.2]

/-- C8 witness: the DELETE fixture keeps its auth header, loses the
hop-by-hop ones, and carries no body. -/
theorem forward_request_construction_witness :
    assocGet "host" (buildForwardRequest cfgAB tiDelete srvAlpha reqDelete).headers = none ∧
    ("authorization", "Bearer token1") ∈ (buildForwardRequest cfgAB tiDelete srvAlpha reqDelete).headers ∧
    (buildForwardRequest cfgAB tiDelete srvAlpha reqDelete).data = none :=
  ⟨(forward_request_construction cfgAB tiDelete srvAlpha reqDelete).2.2.1,
    (forward_request_construction cfgAB tiDelete srvAlpha reqDelete).2.2.2.2.2.1
      ("authorization", "Bearer token1") (by simp [reqDelete])
      (by simp) (by simp) (by simp),
    (forward_request_construction cfgAB tiDelete srvAlpha reqDelete).2.2.2.2.2.2.2.2.2
      (by simp [reqDelete, toUpperStr])⟩

/-- Helper: looking up a registered key in an entry list built by mapping
over a nodup-keyed registry finds that server's entry. -/
theorem assocGet_map_entry {α β : Type} (f : String × α → β) :
    ∀ (l : List (String × α)) (p : String × α), p ∈ l → (l.map Prod.fst).Nodup →
      assocGet p.1 (l.map (fun q => (q.1, f q))) = some (f p) := by
  intro l
  induction l with
  | nil => intro p hp _; cases hp
  | cons q l ih =>
    intro p hp hnd
    rw [List.map_cons, List.nodup_cons] at hnd
    rcases List.mem_cons.mp hp with h | h
    · subst h
      simp [assocGet]
    · have hne : q.1 ≠ p.1 := by
        intro he
        exact hnd.1 (he ▸ List.mem_map_of_mem Prod.fst h)
      simp only [List.map_cons, assocGet, hne, if_false]
      exact ih p h hnd.2

/-- C6: when every registered server but one answers discovery with a tool
array and exactly that one fails, the catalog route still answers 200; the
catalog has one entry per registered server — the succeeding ones
"available" with their tool lists, the failing one "unavailable" with the
error string — and every flattened tool is a registered succeeding
server's tool renamed to `{serverId}.{originalName}`. -/
theorem aggregate_tolerates_single_failure (cfg : ProxyConfig)
    (toolsNet : String → Except String Json) (order : List (String × ServerCfg))
    (bad : String) (toolsOf : String → List Json) (emsg : String)
    (hperm : order.Perm cfg.servers)
    (hnd : (cfg.servers.map Prod.fst).Nodup)
    (hfail : ∀ p ∈ cfg.servers, p.1 = bad → toolsNet (p.2.url ++ "/tools") = .error emsg)
    (hok : ∀ p ∈ cfg.servers, p.1 ≠ bad → ∃ data, toolsNet (p.2.url ++ "/tools") = .ok data ∧
      data.getField "tools" = some (.arr (toolsOf p.1))) :
    (getMethodsRoute cfg toolsNet order).1 = 200 ∧
    ((aggregateGetMethods cfg toolsNet order).downstream_servers.map Prod.fst).Perm
      (cfg.servers.map Prod.fst) ∧
    (∀ p ∈ cfg.servers, p.1 ≠ bad →
      assocGet p.1 (aggregateGetMethods cfg toolsNet order).downstream_servers =
        some ⟨"available", p.2.url, p.2.description, some (.arr (toolsOf p.1)), none⟩) ∧
    (∀ p ∈ cfg.servers, p.1 = bad →
      assocGet p.1 (aggregateGetMethods cfg toolsNet order).downstream_servers =
        some ⟨"unavailable", p.2.url, p.2.description, none, some emsg⟩) ∧
    (∀ t ∈ (aggregateGetMethods cfg toolsNet order).aggregated_tools,
      ∃ p ∈ cfg.servers, p.1 ≠ bad ∧ ∃ tool ∈ toolsOf p.1, t = renameTool p.1 tool) := by
  have hndo : (order.map Prod.fst).Nodup := ((hperm.map Prod.fst).nodup_iff).mpr hnd
  refine ⟨rfl, ?_, ?_, ?_, ?_⟩
  · have he : (aggregateGetMethods cfg toolsNet order).downstream_servers.map Prod.fst =
        order.map Prod.fst := by
      simp [aggregateGetMethods, List.map_map, Function.comp]
    rw [he]
    exact hperm.map Prod.fst
  · intro p hp hne
    have hmem : p ∈ order := hperm.mem_iff.mpr hp
    obtain ⟨data, hnet, htools⟩ := hok p hp hne
    simp only [aggregateGetMethods]
    rw [assocGet_map_entry (fun q => (processServer toolsNet q).1) order p hmem hndo]
    simp [processServer, hnet, htools, jsTruthy]
  · intro p hp heq
    have hmem : p ∈ order := hperm.mem_iff.mpr hp
    simp only [aggregateGetMethods]
    rw [assocGet_map_entry (fun q => (processServer toolsNet q).1) order p hmem hndo]
    simp [processServer, hfail p hp heq]
  · intro t ht
    simp only [aggregateGetMethods] at ht
    rw [List.mem_flatten] at ht
    obtain ⟨ts, hts, htt⟩ := ht
    rw [List.mem_map] at hts
    obtain ⟨q, hq, rfl⟩ := hts
    have hqs : q ∈ cfg.servers := hperm.mem_iff.mp hq
    by_cases hb : q.1 = bad
    · simp [processServer, hfail q hqs hb] at htt
    · obtain ⟨data, hnet, htools⟩ := hok q hqs hb
      simp [processServer, hnet, htools, jsTruthy, List.mem_map] at htt
      obtain ⟨tool, htool, heq⟩ := htt
      exact ⟨q, hqs, hb, tool, htool, heq.symm⟩

/-- Helper: splitting a newline-free line plus its terminator yields the
line and one empty remainder. -/
theorem splitNlChars_append_newline (l : List Char) (h : '\n' ∉ l) :
    splitNlChars (l ++ ['\n']) = [l, []] := by
  induction l with
  | nil => rfl
  | cons c cs ih =>
    have hc : c ≠ '\n' := fun he => h (he ▸ List.mem_cons_self c cs)
    have hcs : '\n' ∉ cs := fun hm => h (List.mem_cons_of_mem c hm)
    rw [List.cons_append]
    simp only [splitNlChars]
    rw [if_neg hc, ih hcs]

/-- Helper: skipping whitespace over an all-whitespace list empties it. -/
theorem skipWs_eq_nil (l : List Char) (h : ∀ c ∈ l, isWsChar c = true) :
    skipWs l = [] := by
  induction l with
  | nil => rfl
  | cons c cs ih =>
    simp only [skipWs]
    rw [if_pos (h c (List.mem_cons_self c cs))]
    exact ih fun d hd => h d (List.mem_cons_of_mem c hd)

/-- Helper: the value parser rejects input that is nothing but
whitespace. -/
theorem parseVal_of_skipWs_nil (fuel : Nat) (l : List Char) (h : skipWs l = []) :
    parseVal fuel l = none := by
  cases fuel with
  | zero => rfl
  | succ n =>
    simp only [parseVal, h]
    rfl

/-- Helper: a line that parses is not whitespace-only, so `line.trim()` is
non-empty and the wrapper's filter keeps it. -/
theorem trimChars_ne_nil_of_parse (l : List Char) (j : Json)
    (h : parseJson l = some j) : trimChars l ≠ [] := by
  intro ht
  have h1 : (l.dropWhile isWsChar).reverse.dropWhile isWsChar = [] := by
    have h2 := congrArg List.reverse ht
    simpa [trimChars] using h2
  have h2 : ∀ c ∈ (l.dropWhile isWsChar).reverse, isWsChar c = true :=
    List.dropWhile_eq_nil_iff.mp h1
  have hall : ∀ c ∈ l, isWsChar c = true := by
    intro c hc
    have hc2 : c ∈ l.takeWhile isWsChar ++ l.dropWhile isWsChar := by
      rw [List.takeWhile_append_dropWhile]
      exact hc
    rcases List.mem_append.mp hc2 with h3 | h3
    · exact List.mem_takeWhile_imp h3
    · exact h2 c (List.mem_reverse.mpr h3)
  have hnone : parseJson l = none := by
    unfold parseJson
    rw [parseVal_of_skipWs_nil _ _ (skipWs_eq_nil l hall)]
  rw [h] at hnone
  cases hnone

/-- Helper: one stdout chunk holding exactly one complete, parseable,
newline-terminated line resolves a listener exactly when the parsed `id`
matches the listener's request id. -/
theorem handleChunk_complete_line (r : Int) (l : List Char) (j : Json)
    (hnl : '\n' ∉ l) (hp : parseJson l = some j) :
    handleChunk r (l ++ ['\n']) = if matchesId j r then some j else none := by
  have ht : (trimChars l).isEmpty = false := by
    cases he : trimChars l with
    | nil => exact absurd he (trimChars_ne_nil_of_parse l j hp)
    | cons _ _ => rfl
  have hemp : (trimChars ([] : List Char)).isEmpty = true := rfl
  simp [handleChunk, splitNlChars_append_newline l hnl, List.filter_cons, ht, hemp,
    List.findSome?, hp]
  cases matchesId j r <;> simp

/-- Helper: a settled (resolved) call is unaffected by further chunks. -/
theorem processChunks_resolved (chunks : List (List Char)) (r : Int) (j : Json) :
    processChunks chunks ⟨r, .resolved j⟩ = ⟨r, .resolved j⟩ := by
  induction chunks with
  | nil => rfl
  | cons ch chs ih =>
    unfold processChunks at ih ⊢
    rw [List.foldl_cons]
    exact ih

/-- Helper: a list whose image is nodup has an injective map on its
members. -/
theorem nodup_map_inj {α β : Type} (f : α → β) :
    ∀ (l : List α), (l.map f).Nodup → ∀ a ∈ l, ∀ b ∈ l, f a = f b → a = b := by
  intro l
  induction l with
  | nil => intro _ a ha; cases ha
  | cons x xs ih =>
    intro hnd a ha b hb hab
    rw [List.map_cons, List.nodup_cons] at hnd
    rcases List.mem_cons.mp ha with h1 | h1 <;> rcases List.mem_cons.mp hb with h2 | h2
    · rw [h1, h2]
    · exact absurd (show f x ∈ List.map f xs by
        rw [← h1, hab]; exact List.mem_map_of_mem f h2) hnd.1
    · exact absurd (show f x ∈ List.map f xs by
        rw [← h2, ← hab]; exact List.mem_map_of_mem f h1) hnd.1
    · exact ih hnd.2 a h1 b h2 hab

/-- Helper: folding one more chunk is a single listener run first. -/
theorem processChunks_cons (ch : List Char) (chs : List (List Char)) (c : Call) :
    processChunks (ch :: chs) c = processChunks chs (applyChunkCall ch c) := rfl

/-- Helper: under the concurrent-call scenario — distinct request ids,
well-formed response lines, every emitted chunk one of the scenario's
lines — a pending call whose own line is eventually emitted ends resolved
with exactly its own response. -/
theorem processChunks_resolves (spec : List SpecCall) (s : SpecCall)
    (emitted : List (List Char))
    (hnd : (spec.map SpecCall.reqId).Nodup)
    (hwf : ∀ t ∈ spec, parseJson t.line = some t.json ∧
      t.json.getField "id" = some (.num t.reqId) ∧ '\n' ∉ t.line)
    (hs : s ∈ spec)
    (hsub : ∀ e ∈ emitted, ∃ t ∈ spec, e = t.line)
    (hcov : s.line ∈ emitted) :
    processChunks (emitted.map (fun l => l ++ ['\n'])) (mkPending s) = mkResolved s := by
  induction emitted with
  | nil => cases hcov
  | cons e rest ih =>
    obtain ⟨t, htspec, rfl⟩ := hsub e (List.mem_cons_self e rest)
    obtain ⟨hpt, hid, hnlt⟩ := hwf t htspec
    rw [List.map_cons, processChunks_cons]
    have hch := handleChunk_complete_line s.reqId t.line t.json hnlt hpt
    by_cases hre : t.reqId = s.reqId
    · have hts : t = s := nodup_map_inj SpecCall.reqId spec hnd t htspec s hs hre
      subst hts
      have hm : matchesId t.json t.reqId = true := by
        simp [matchesId, hid]
      have happ : applyChunkCall (t.line ++ ['\n']) (mkPending t) = mkResolved t := by
        simp [applyChunkCall, mkPending, mkResolved, hch, hm]
      rw [happ]
      exact processChunks_resolved _ t.reqId t.json
    · have hm : matchesId t.json s.reqId = false := by
        simp [matchesId, hid, hre]
      have happ : applyChunkCall (t.line ++ ['\n']) (mkPending s) = mkPending s := by
        simp [applyChunkCall, mkPending, hch, hm]
      rw [happ]
      apply ih (fun e he => hsub e (List.mem_cons_of_mem _ he))
      rcases List.mem_cons.mp hcov with he | he
      · exfalso
        obtain ⟨hps, hids, _⟩ := hwf s hs
        rw [he, hpt] at hps
        have hj : t.json = s.json := Option.some.inj hps
        rw [hj, hids] at hid
        exact hre ((Json.num.inj (Option.some.inj hid)).symm)
      · exact he

/-- Helper: an empty chunk list leaves a call unchanged. -/
theorem processChunks_nil (c : Call) : processChunks [] c = c := rfl

/-- Helper: over a trace of pure stdout data events every attached
listener runs independently, so the run is a per-call fold. -/
theorem bridgeRun_data_chunks (calls : List Call) (chunks : List (List Char)) :
    bridgeRun ⟨true, calls⟩ (chunks.map .stdoutData) = ⟨true, calls.map (processChunks chunks)⟩ := by
  induction chunks generalizing calls with
  | nil =>
    have h : ∀ cs : List Call, cs.map (processChunks []) = cs := by
      intro cs
      induction cs with
      | nil => rfl
      | cons c cs ih => rw [List.map_cons, processChunks_nil, ih]
    simp [bridgeRun, h]
  | cons ch chs ih =>
    rw [List.map_cons]
    show bridgeRun (bridgeStep ⟨true, calls⟩ (.stdoutData ch)) (chs.map .stdoutData) = _
    rw [show bridgeStep ⟨true, calls⟩ (.stdoutData ch) = ⟨true, calls.map (applyChunkCall ch)⟩
      from by simp [bridgeStep]]
    rw [ih (calls.map (applyChunkCall ch))]
    rw [List.map_map]
    rfl

/-- C1: with any number of concurrent calls carrying distinct integer ids,
and the subprocess emitting their complete newline-terminated response
lines each within one stdout data event, in any order (duplicates allowed),
every call's promise resolves with exactly the parsed response whose `id`
equals its own request id — never one chosen by position or arrival
order. -/
theorem bridge_correlates_responses_by_id (spec : List SpecCall)
    (emitted : List (List Char))
    (hnd : (spec.map SpecCall.reqId).Nodup)
    (hwf : ∀ t ∈ spec, parseJson t.line = some t.json ∧
      t.json.getField "id" = some (.num t.reqId) ∧ '\n' ∉ t.line)
    (hsub : ∀ e ∈ emitted, ∃ t ∈ spec, e = t.line)
    (hcov : ∀ t ∈ spec, t.line ∈ emitted) :
    bridgeRun ⟨true, spec.map mkPending⟩
      (emitted.map (fun l => .stdoutData (l ++ ['\n']))) =
      ⟨true, spec.map mkResolved⟩ := by
  have hmm : emitted.map (fun l => BridgeEvent.stdoutData (l ++ ['\n'])) =
      (emitted.map (fun l => l ++ ['\n'])).map .stdoutData := by
    rw [List.map_map]
    rfl
  rw [hmm, bridgeRun_data_chunks]
  congr 1
  rw [List.map_map]
  apply List.map_congr_left
  intro t ht
  exact processChunks_resolves spec t emitted hnd hwf ht hsub (hcov t ht)

/-- C1 witness: three concurrent calls (ids 1, 2, 3) whose complete
response lines arrive one per data event in reverse order; each resolves
with its own response. -/
theorem bridge_correlates_responses_by_id_witness :
    (specABC.map SpecCall.reqId).Nodup ∧
    bridgeRun ⟨true, specABC.map mkPending⟩
      ([lineC, lineB, lineA].map (fun l => .stdoutData (l ++ ['\n']))) =
      ⟨true, specABC.map mkResolved⟩ := by
  constructor
  · decide
  · exact bridge_correlates_responses_by_id specABC [lineC, lineB, lineA] (by decide)
      (by intro t ht
          simp only [specABC] at ht
          fin_cases ht <;> exact ⟨rfl, rfl, by decide⟩)
      (by intro e he
          fin_cases he
          · exact ⟨⟨3, lineC, jsonC⟩, by simp [specABC], rfl⟩
          · exact ⟨⟨2, lineB, jsonB⟩, by simp [specABC], rfl⟩
          · exact ⟨⟨1, lineA, jsonA⟩, by simp [specABC], rfl⟩)
      (by intro t ht
          simp only [specABC] at ht
          fin_cases ht <;> decide)

/-- C2 (code bug): the subprocess `close` handler (lines 119-122) only
sets `this.serverProcess = null` — no pending promise is rejected with a
"process terminated" error (no code path produces such an error, which is
why `CallOutcome` has no such constructor).  Here the subprocess exits
while three calls are outstanding and all three remain pending: the
callers hang, contradicting the claim. -/
theorem bridge_close_leaves_pending_calls :
    bridgeRun ⟨true, [⟨1, .pending⟩, ⟨2, .pending⟩, ⟨3, .pending⟩]⟩ [.processClosed] =
      ⟨false, [⟨1, .pending⟩, ⟨2, .pending⟩, ⟨3, .pending⟩]⟩ := rfl

/-- C3 (code bug): the listener splits each data event in isolation —
there is no cross-event buffer (lines 162-177).  Here the complete,
parseable id-1 response line arrives split across two data events before
the deadline, yet neither fragment parses, so the call is never resolved
and the 10-second timer rejects it with a timeout — contradicting "the
caller's promise resolves regardless of how the byte stream was
chunked". -/
theorem bridge_split_line_times_out :
    chunkSplitA ++ chunkSplitB = lineA ++ ['\n'] ∧
    parseJson lineA = some jsonA ∧
    matchesId jsonA 1 = true ∧
    bridgeRun ⟨true, [⟨1, .pending⟩]⟩
      [.stdoutData chunkSplitA, .stdoutData chunkSplitB, .timerFired 0] =
      ⟨true, [⟨1, .rejectedTimeout⟩]⟩ :=
  ⟨by decide, rfl, rfl, rfl⟩

/-- Helper: no event other than process close changes liveness. -/
theorem bridgeStep_alive (s : BridgeState) (e : BridgeEvent)
    (h : e.isProcessClosed = false) : (bridgeStep s e).alive = s.alive := by
  cases e with
  | stdoutData ch =>
    by_cases ha : s.alive <;> simp [bridgeStep, ha]
  | timerFired k =>
    by_cases ha : s.alive <;> simp [bridgeStep, ha]
  | processClosed => simp [BridgeEvent.isProcessClosed] at h

/-- Helper: liveness across a close-free trace. -/
theorem bridgeRun_alive (evs : List BridgeEvent) :
    ∀ (s : BridgeState), (∀ e ∈ evs, e.isProcessClosed = false) →
      (bridgeRun s evs).alive = s.alive := by
  induction evs with
  | nil => intro s _; rfl
  | cons e rest ih =>
    intro s h
    show (bridgeRun (bridgeStep s e) rest).alive = s.alive
    rw [ih (bridgeStep s e) (fun x hx => h x (List.mem_cons_of_mem e hx))]
    exact bridgeStep_alive s e (h e (List.mem_cons_self e rest))

/-- Helper: the timer for call `i` rewrites exactly the i-th entry. -/
theorem rejectAt_getElem? (l : List Call) :
    ∀ (i k : Nat), (rejectAt l i)[k]? = if k = i then (l[k]?).map timeoutCall else l[k]? := by
  induction l with
  | nil => intro i k; simp [rejectAt]
  | cons c cs ih =>
    intro i k
    cases i with
    | zero =>
      cases k with
      | zero => simp [rejectAt]
      | succ k => simp [rejectAt]
    | succ i =>
      cases k with
      | zero => simp [rejectAt]
      | succ k =>
        simp only [rejectAt, List.getElem?_cons_succ, ih i k]
        by_cases hk : k = i
        · simp [hk]
        · simp [hk, fun h => hk (Nat.succ_injective h)]

/-- Helper: a call already rejected by its timer is never touched again by
any later event — a late matching response is dropped. -/
theorem bridgeStep_preserves_rejected (s : BridgeState) (e : BridgeEvent) (i : Nat) (r : Int)
    (h : s.calls[i]? = some ⟨r, .rejectedTimeout⟩) :
    (bridgeStep s e).calls[i]? = some ⟨r, .rejectedTimeout⟩ := by
  cases e with
  | stdoutData ch =>
    by_cases ha : s.alive
    · simp [bridgeStep, ha, List.getElem?_map, h, applyChunkCall]
    · simp [bridgeStep, ha, h]
  | timerFired k =>
    by_cases ha : s.alive
    · simp only [bridgeStep, ha, if_true]
      rw [rejectAt_getElem? s.calls k i]
      by_cases hk : i = k
      · subst hk
        rw [if_pos rfl, h]
        rfl
      · rw [if_neg hk]
        exact h
    · simp [bridgeStep, ha, h]
  | processClosed => simp [bridgeStep, h]

/-- Helper: rejected-timeout stability over any remaining trace. -/
theorem bridgeRun_preserves_rejected (evs : List BridgeEvent) :
    ∀ (s : BridgeState) (i : Nat) (r : Int), s.calls[i]? = some ⟨r, .rejectedTimeout⟩ →
      (bridgeRun s evs).calls[i]? = some ⟨r, .rejectedTimeout⟩ := by
  induction evs with
  | nil => intro s i r h; exact h
  | cons e rest ih =>
    intro s i r h
    exact ih (bridgeStep s e) i r (bridgeStep_preserves_rejected s e i r h)

/-- C9: if a call is still pending when its 10-second timer fires (and the
subprocess has not exited before then), the promise is rejected with the
timeout error and its listener removed, and no later event — in
particular a late-arriving matching response line, or even the process
exiting — ever changes that outcome: the late response is dropped and the
call is never "completed". -/
theorem bridge_timeout_rejects_and_drops_late_response (calls : List Call)
    (pre post : List BridgeEvent) (i : Nat) (r : Int)
    (hpre : ∀ e ∈ pre, e.isProcessClosed = false)
    (hpend : (bridgeRun ⟨true, calls⟩ pre).calls[i]? = some ⟨r, .pending⟩) :
    (bridgeRun ⟨true, calls⟩ (pre ++ .timerFired i :: post)).calls[i]? =
      some ⟨r, .rejectedTimeout⟩ := by
  have halive : (bridgeRun ⟨true, calls⟩ pre).alive = true :=
    bridgeRun_alive pre ⟨true, calls⟩ hpre
  have hsplit : bridgeRun ⟨true, calls⟩ (pre ++ .timerFired i :: post) =
      bridgeRun (bridgeStep (bridgeRun ⟨true, calls⟩ pre) (.timerFired i)) post := by
    simp [bridgeRun, List.foldl_append]
  rw [hsplit]
  apply bridgeRun_preserves_rejected post _ i r
  simp only [bridgeStep, halive, if_true]
  rw [rejectAt_getElem? _ i i, if_pos rfl, hpend]
  rfl

/-- C9 witness: call id 7 sees only noise before its timer fires; the
matching id-7 response line arriving after expiry (and a subsequent
process exit) leaves the call rejected with the timeout. -/
theorem bridge_timeout_rejects_and_drops_late_response_witness :
    (bridgeRun ⟨true, [⟨7, .pending⟩]⟩ [.stdoutData noiseChunk]).calls[0]? =
      some ⟨7, .pending⟩ ∧
    (bridgeRun ⟨true, [⟨7, .pending⟩]⟩
      ([.stdoutData noiseChunk] ++ .timerFired 0 ::
        [.stdoutData (lineG ++ ['\n']), .processClosed])).calls[0]? =
      some ⟨7, .rejectedTimeout⟩ := by
  constructor
  · rfl
  · exact bridge_timeout_rejects_and_drops_late_response [⟨7, .pending⟩]
      [.stdoutData noiseChunk] [.stdoutData (lineG ++ ['\n']), .processClosed] 0 7
      (by intro e he; fin_cases he; rfl) rfl

/-- C6 witness: three registered servers, discovery completing in reverse
order, gamma's socket refused: gamma's entry is "unavailable" with the
error string, alpha's is "available" with its tool list, and the route
answers 200. -/
theorem aggregate_tolerates_single_failure_witness :
    (getMethodsRoute cfg3 toolsNet3 order3).1 = 200 ∧
    assocGet "gamma" (aggregateGetMethods cfg3 toolsNet3 order3).downstream_servers =
      some ⟨"unavailable", "http://localhost:8005", "Gamma downstream", none,
        some "connect ECONNREFUSED 127.0.0.1:8005"⟩ ∧
    assocGet "alpha" (aggregateGetMethods cfg3 toolsNet3 order3).downstream_servers =
      some ⟨"available", "http://localhost:8001", "Alpha downstream",
        some (.arr [toolReadFile]), none⟩ := by
  have hfail : ∀ p ∈ cfg3.servers, p.1 = "gamma" →
      toolsNet3 (p.2.url ++ "/tools") = .error "connect ECONNREFUSED 127.0.0.1:8005" := by
    intro p hp h1
    fin_cases hp
    · simp at h1
    · simp at h1
    · rfl
  have hok : ∀ p ∈ cfg3.servers, p.1 ≠ "gamma" → ∃ data,
      toolsNet3 (p.2.url ++ "/tools") = .ok data ∧
      data.getField "tools" = some (.arr ((fun id =>
        if id = "alpha" then [toolReadFile]
        else if id = "beta" then [toolSearch] else []) p.1)) := by
    intro p hp hne
    fin_cases hp
    · exact ⟨.obj [("tools", .arr [toolReadFile])], rfl, rfl⟩
    · exact ⟨.obj [("tools", .arr [toolSearch])], rfl, rfl⟩
    · exact absurd rfl hne
  have h := aggregate_tolerates_single_failure cfg3 toolsNet3 order3 "gamma"
    (fun id => if id = "alpha" then [toolReadFile] else if id = "beta" then [toolSearch] else [])
    "connect ECONNREFUSED 127.0.0.1:8005" (by decide) (by decide) hfail hok
  exact ⟨h.1,
    h.2.2.2.1 ("gamma", srvGamma) (by simp [cfg3]) rfl,
    h.2.2.1 ("alpha", srvAlpha) (by simp [cfg3]) (by simp)⟩
